import Mathlib

/-!
# Debug-draw overlay of the Chipmunk2D demo (`demo/ChipmunkDebugDraw.c`)

A shallow embedding of the draw calls of `ChipmunkDebugDraw.c`.

Conventions of the embedding:

* C `float` and `cpFloat` values are exact rationals (`ℚ`): rounding is not modelled, and a
  division by zero yields `0` as in `ℚ`.
* C `int` values are `Int`.
* A draw call hands geometry to the Photon renderer.  The renderer is an external library; the
  embedding records, for every `PhotonRendererEnqueueTriangles` request, the render state, the
  requested triangle and vertex counts, and the vertexes and indexes the draw call then writes
  into the returned buffers.  Indexes are recorded as the draw call supplies them, that is
  relative to the first vertex of its own request.
* The static arrays `glyph_indexes` and `Palette` and the font table `sdf_spacing` are maps from
  an index to a value; an access outside the extent of the C array, undefined in C, is an access
  of the map at that index.  The caller's array `verts` of a polygon is a list, and a read past
  its end has no result.
* Functions and constants of headers that are not part of the module (`cpvnormalize`,
  `cpvforangle`, the font descriptor) are parameters.
-/

namespace ChipmunkDebugDraw

/-! ## Data model -/

/-- Chipmunk 2D vector `cpVect`. -/
structure cpVect where
  x : ℚ
  y : ℚ
deriving DecidableEq

/-- Chipmunk bounding box `cpBB` (left, bottom, right, top). -/
structure cpBB where
  l : ℚ
  b : ℚ
  r : ℚ
  t : ℚ
deriving DecidableEq

/-- Chipmunk debug color `cpSpaceDebugColor`. -/
structure cpSpaceDebugColor where
  r : ℚ
  g : ℚ
  b : ℚ
  a : ℚ
deriving DecidableEq

/-- Photon two-component vector `pvec2`. -/
structure pvec2 where
  x : ℚ
  y : ℚ
deriving DecidableEq

/-- Photon four-component vector `pvec4`; as a color its components are r, g, b, a. -/
structure pvec4 where
  x : ℚ
  y : ℚ
  z : ℚ
  w : ℚ
deriving DecidableEq

/-- The two render states of the module: `PrimitiveState` and `FontState`. -/
inductive PhotonRenderState where
  | PrimitiveState
  | FontState
deriving DecidableEq

/-- One vertex as written by `PhotonVertexPush`: position, two UV attributes, color. -/
structure PhotonVertex where
  position : pvec4
  uv1 : pvec2
  uv2 : pvec2
  color : pvec4
deriving DecidableEq

/-- The buffers of one `PhotonRendererEnqueueTriangles` request together with what the draw call
wrote into them: the render state and the requested counts, the vertexes in slot order and the
indexes in write order. -/
structure PhotonRenderBuffers where
  state : PhotonRenderState
  triangles : Int
  vertexCount : Int
  vertexes : List PhotonVertex
  indexes : List Int
  batchOffset : Int
deriving DecidableEq

/-- The Photon renderer handle `Renderer`, an external service.  Of its state only the offset at
which it places a request inside its batch is named, since `ChipmunkDebugDrawPolygon` passes it
on; how the renderer moves between requests is not modelled. -/
structure PhotonRenderer where
  batchOffset : Int

/-- Functions of the Chipmunk vector header that the module calls and whose bodies are not part of
the module: they are parameters of the embedding. -/
structure ChipmunkMath where
  cpvnormalize : cpVect → cpVect
  cpvforangle : ℚ → cpVect

/-! ## Helpers of the Chipmunk and Photon headers -/

/-- Modelled from the spec: `cpv` of the Chipmunk vector header (not among the sources) builds a
vector from its two coordinates. -/
def cpv (x y : ℚ) : cpVect := ⟨x, y⟩

/-- Modelled from the spec: `cpvadd` of the Chipmunk vector header (not among the sources),
componentwise sum. -/
def cpvadd (v1 v2 : cpVect) : cpVect := ⟨v1.x + v2.x, v1.y + v2.y⟩

/-- Modelled from the spec: `cpvsub` of the Chipmunk vector header (not among the sources),
componentwise difference. -/
def cpvsub (v1 v2 : cpVect) : cpVect := ⟨v1.x - v2.x, v1.y - v2.y⟩

/-- Modelled from the spec: `cpvneg` of the Chipmunk vector header (not among the sources),
componentwise negation. -/
def cpvneg (v : cpVect) : cpVect := ⟨-v.x, -v.y⟩

/-- Modelled from the spec: `cpvmult` of the Chipmunk vector header (not among the sources),
scaling of a vector. -/
def cpvmult (v : cpVect) (s : ℚ) : cpVect := ⟨v.x * s, v.y * s⟩

/-- Modelled from the spec: `cpfmax` of the Chipmunk headers (not among the sources), the larger of
two numbers. -/
def cpfmax (a b : ℚ) : ℚ := if a > b then a else b

/-- Modelled from the spec: `fmaxf` of the C library, the larger of two numbers. -/
def fmaxf (a b : ℚ) : ℚ := if a > b then a else b

/-- Modelled from the spec: `LAColor` of `ChipmunkDebugDraw.h` (not among the sources), the gray
color of luminance `l` and alpha `a`; `LAColor 0 0` is the fully transparent fill of the spec. -/
def LAColor (l a : ℚ) : cpSpaceDebugColor := ⟨l, l, l, a⟩

/-- Modelled from the spec: `pvec4Mult` of the Photon headers (not among the sources), scaling of
every channel. -/
def pvec4Mult (v : pvec4) (s : ℚ) : pvec4 := ⟨v.x * s, v.y * s, v.z * s, v.w * s⟩

/-- Modelled from the spec: the Photon constant `PVEC2_0` (not among the sources), the zero
vector. -/
def PVEC2_0 : pvec2 := ⟨0, 0⟩

/-- Modelled from the spec: `PhotonRendererEnqueueTriangles` of the Photon renderer (not among the
sources): asks for `triangles` triangles and `vertexCount` vertexes in a render state and returns
writable buffers, here still empty. -/
def PhotonRendererEnqueueTriangles (Renderer : PhotonRenderer) (triangles vertexCount : Int)
    (state : PhotonRenderState) : PhotonRenderBuffers :=
  ⟨state, triangles, vertexCount, [], [], Renderer.batchOffset⟩

/-- Modelled from the spec: `PhotonVertexPush` of the Photon headers (not among the sources) writes
one vertex at the cursor and returns the next slot.  Every draw call of the module writes its slots
in increasing order, so the writes are an append. -/
def PhotonVertexPush (vertexes : List PhotonVertex) (position : pvec4) (uv1 uv2 : pvec2)
    (color : pvec4) : List PhotonVertex :=
  vertexes ++ [⟨position, uv1, uv2, color⟩]

/-- Modelled from the spec: `PhotonIndexesCopy` of the Photon headers (not among the sources)
pushes `count` indexes of `src`, from `start` on, at the index cursor and returns the next slot.
The indexes are recorded as supplied, relative to the first vertex of the request; the relocation
of a request inside the renderer's batch (`batchOffset`) is the renderer's. -/
def PhotonIndexesCopy (indexes : List Int) (src : List Int) (start count : Nat)
    (_batchOffset : Int) : List Int :=
  indexes ++ (src.drop start).take count

/-- Modelled from the spec: `PhotonRenderBuffersCopyIndexes` of the Photon headers (not among the
sources): `PhotonIndexesCopy` on the index cursor of the buffers. -/
def PhotonRenderBuffersCopyIndexes (buffers : PhotonRenderBuffers) (src : List Int)
    (start count : Nat) : PhotonRenderBuffers :=
  { buffers with indexes := PhotonIndexesCopy buffers.indexes src start count buffers.batchOffset }

/-! ## Shape drawing -/

/-- Source: `MakeColor`. -/
def MakeColor (c : cpSpaceDebugColor) : pvec4 := ⟨c.r, c.g, c.b, c.a⟩

/-- Source: `DrawCircle`, one quad of the primitive batch. -/
def DrawCircle (Renderer : PhotonRenderer) (p : pvec2) (r1 r2 : ℚ) (color : pvec4) :
    PhotonRenderBuffers :=
  let attribs : pvec2 := ⟨r1, cpfmax r2 1⟩
  let buffers := PhotonRendererEnqueueTriangles Renderer 2 4 .PrimitiveState
  let v := PhotonVertexPush buffers.vertexes ⟨p.x - r2, p.y - r2, 0, 1⟩ ⟨-r2, -r2⟩ attribs color
  let v := PhotonVertexPush v ⟨p.x - r2, p.y + r2, 0, 1⟩ ⟨-r2, r2⟩ attribs color
  let v := PhotonVertexPush v ⟨p.x + r2, p.y + r2, 0, 1⟩ ⟨r2, r2⟩ attribs color
  let v := PhotonVertexPush v ⟨p.x + r2, p.y - r2, 0, 1⟩ ⟨r2, -r2⟩ attribs color
  PhotonRenderBuffersCopyIndexes { buffers with vertexes := v } [0, 1, 2, 2, 3, 0] 0 6

/-- Source: `DrawSegment`, eight vertexes and six triangles of the primitive batch. -/
def DrawSegment (M : ChipmunkMath) (Renderer : PhotonRenderer) (a b : cpVect) (r1 r2 : ℚ)
    (color : pvec4) : PhotonRenderBuffers :=
  let t := cpvmult (M.cpvnormalize (cpvsub b a)) r2
  let attribs : pvec2 := ⟨r1, cpfmax r2 1⟩
  let buffers := PhotonRendererEnqueueTriangles Renderer 6 8 .PrimitiveState
  let v := PhotonVertexPush buffers.vertexes
    ⟨b.x - t.y + t.x, b.y + t.x + t.y, 0, 1⟩ ⟨r2, -r2⟩ attribs color
  let v := PhotonVertexPush v ⟨b.x + t.y + t.x, b.y - t.x + t.y, 0, 1⟩ ⟨r2, r2⟩ attribs color
  let v := PhotonVertexPush v ⟨b.x - t.y, b.y + t.x, 0, 1⟩ ⟨0, -r2⟩ attribs color
  let v := PhotonVertexPush v ⟨b.x + t.y, b.y - t.x, 0, 1⟩ ⟨0, r2⟩ attribs color
  let v := PhotonVertexPush v ⟨a.x - t.y, a.y + t.x, 0, 1⟩ ⟨0, -r2⟩ attribs color
  let v := PhotonVertexPush v ⟨a.x + t.y, a.y - t.x, 0, 1⟩ ⟨0, r2⟩ attribs color
  let v := PhotonVertexPush v ⟨a.x - t.y - t.x, a.y + t.x - t.y, 0, 1⟩ ⟨-r2, -r2⟩ attribs color
  let v := PhotonVertexPush v ⟨a.x + t.y - t.x, a.y - t.x - t.y, 0, 1⟩ ⟨-r2, r2⟩ attribs color
  PhotonRenderBuffersCopyIndexes { buffers with vertexes := v }
    [0, 1, 2, 3, 1, 2, 3, 4, 2, 3, 4, 5, 6, 4, 5, 6, 7, 5] 0 18

/-- Source: `ChipmunkDebugDrawSegment`.  The result lists the requests the call enqueues. -/
def ChipmunkDebugDrawSegment (M : ChipmunkMath) (Renderer : PhotonRenderer) (a b : cpVect)
    (color : cpSpaceDebugColor) : List PhotonRenderBuffers :=
  [DrawSegment M Renderer a b 2 1 (MakeColor color)]

/-- Source: `ChipmunkDebugDrawFatSegment`; `scaleFactor` is the global
`ChipmunkDebugDrawScaleFactor`, and `1/ChipmunkDebugDrawScaleFactor` is a float division. -/
def ChipmunkDebugDrawFatSegment (M : ChipmunkMath) (Renderer : PhotonRenderer) (scaleFactor : ℚ)
    (a b : cpVect) (radius : ℚ) (_outline fill : cpSpaceDebugColor) : List PhotonRenderBuffers :=
  let r := fmaxf (radius + 1 / scaleFactor) 1
  [DrawSegment M Renderer a b (r - 1) r (MakeColor fill)]

/-- Source: `ChipmunkDebugDrawDot`. -/
def ChipmunkDebugDrawDot (Renderer : PhotonRenderer) (scaleFactor : ℚ) (size : ℚ) (pos : cpVect)
    (fill : cpSpaceDebugColor) : List PhotonRenderBuffers :=
  let r := size * (1 / 2) * scaleFactor
  [DrawCircle Renderer ⟨pos.x, pos.y⟩ (r + 1) r (MakeColor fill)]

/-- Source: `ChipmunkDebugDrawCircle`: the fill quad, then the segment from the center to the
circumference. -/
def ChipmunkDebugDrawCircle (M : ChipmunkMath) (Renderer : PhotonRenderer) (scaleFactor : ℚ)
    (pos : cpVect) (angle radius : ℚ) (outline fill : cpSpaceDebugColor) :
    List PhotonRenderBuffers :=
  let r := radius + 1 / scaleFactor
  DrawCircle Renderer ⟨pos.x, pos.y⟩ (r - 1) r (MakeColor fill) ::
    ChipmunkDebugDrawSegment M Renderer pos
      (cpvadd pos (cpvmult (M.cpvforangle angle) (radius - scaleFactor * (1 / 2)))) outline

/-- Source: first loop of `ChipmunkDebugDrawPolygon`: push `verts[i]` for `i` from the head of
`is`.  A read past the end of `verts` has no result. -/
def polygonPushVertexes (verts : List cpVect) (attribs : pvec2) (color : pvec4) :
    List Nat → List PhotonVertex → Option (List PhotonVertex)
  | [], vertexes => some vertexes
  | i :: is, vertexes =>
    match verts[i]? with
    | none => none
    | some v =>
      polygonPushVertexes verts attribs color is
        (PhotonVertexPush vertexes ⟨v.x, v.y, 0, 1⟩ PVEC2_0 attribs color)

/-- Source: second loop of `ChipmunkDebugDrawPolygon`: copy the triple `(0, i+1, i+2)` for `i`
from the head of `is`. -/
def polygonCopyIndexes (batchOffset : Int) : List Nat → List Int → List Int
  | [], indexes => indexes
  | i :: is, indexes =>
    polygonCopyIndexes batchOffset is
      (PhotonIndexesCopy indexes [0, (i : Int) + 1, (i : Int) + 2] 0 3 batchOffset)

/-- Source: `ChipmunkDebugDrawPolygon`.  `verts` is the caller's array; the loops run for
`0 ≤ i < count` and `0 ≤ i < count - 2`. -/
def ChipmunkDebugDrawPolygon (Renderer : PhotonRenderer) (count : Int) (verts : List cpVect)
    (_radius : ℚ) (_outline fill : cpSpaceDebugColor) : Option (List PhotonRenderBuffers) :=
  let attribs : pvec2 := ⟨1, 1⟩
  let color := MakeColor fill
  let buffers := PhotonRendererEnqueueTriangles Renderer (count - 2) count .PrimitiveState
  match polygonPushVertexes verts attribs color (List.range count.toNat) buffers.vertexes with
  | none => none
  | some vertexes =>
    some [{ buffers with
      vertexes := vertexes
      indexes := polygonCopyIndexes buffers.batchOffset (List.range (count - 2).toNat) buffers.indexes }]

/-- Source: `ChipmunkDebugDrawBB`. -/
def ChipmunkDebugDrawBB (Renderer : PhotonRenderer) (bb : cpBB) (color : cpSpaceDebugColor) :
    Option (List PhotonRenderBuffers) :=
  let verts := [cpv bb.r bb.b, cpv bb.r bb.t, cpv bb.l bb.t, cpv bb.l bb.b]
  ChipmunkDebugDrawPolygon Renderer 4 verts 0 color (LAColor 0 0)

/-! ## Initialization -/

/-- Modelled from the spec: the font atlas descriptor `VeraMoBd.ttf_sdf.h` (not among the sources):
the image dimensions, the number of glyphs, the factor by which the sub-pixel fields of the table
are scaled, and the table `sdf_spacing` of eight fields per glyph (character code, atlas x,
atlas y, width, height, bearing x, bearing y, advance). -/
structure FontAtlas where
  sdf_tex_width : Int
  sdf_tex_height : Int
  sdf_num_chars : Int
  scale_factor : ℚ
  sdf_spacing : Int → Int

/-- The module-level arrays `Palette[16]` and `glyph_indexes[256]`. -/
structure DebugDrawState where
  Palette : Nat → pvec4
  glyph_indexes : Int → Int

/-- Static storage before `ChipmunkDebugDrawInit`: all zero. -/
def initialState : DebugDrawState := ⟨fun _ => ⟨0, 0, 0, 0⟩, fun _ => 0⟩

/-- Source: the local table `palette` of `ChipmunkDebugDrawInit`, 16 colors of 0-255 channels. -/
def palette : List pvec4 :=
  [⟨20, 12, 28, 255⟩, ⟨68, 36, 52, 255⟩, ⟨48, 52, 109, 255⟩, ⟨78, 74, 78, 255⟩,
   ⟨133, 76, 48, 255⟩, ⟨52, 101, 36, 255⟩, ⟨208, 70, 72, 255⟩, ⟨117, 113, 97, 255⟩,
   ⟨89, 125, 206, 255⟩, ⟨210, 125, 44, 255⟩, ⟨133, 149, 161, 255⟩, ⟨109, 170, 44, 255⟩,
   ⟨210, 170, 153, 255⟩, ⟨109, 194, 202, 255⟩, ⟨218, 212, 94, 255⟩, ⟨222, 238, 214, 255⟩]

/-- Source: the palette loop of `ChipmunkDebugDrawInit`,
`Palette[i] = pvec4Mult(palette[i], 1.0/255.0)` for `i` from the head of `is`. -/
def initPaletteLoop : List Nat → (Nat → pvec4) → (Nat → pvec4)
  | [], P => P
  | i :: is, P =>
    initPaletteLoop is (Function.update P i (pvec4Mult (palette.getD i ⟨0, 0, 0, 0⟩) (1 / 255)))

/-- Source: the glyph loop of `ChipmunkDebugDrawInit`,
`glyph_indexes[sdf_spacing[i*8]] = i` for `i` from the head of `is`. -/
def initGlyphLoop (font : FontAtlas) : List Nat → (Int → Int) → (Int → Int)
  | [], g => g
  | i :: is, g =>
    let char_index := font.sdf_spacing ((i : Int) * 8)
    initGlyphLoop font is (Function.update g char_index (i : Int))

/-- Source: `ChipmunkDebugDrawInit`, its effect on the module-level arrays. -/
def ChipmunkDebugDrawInit (font : FontAtlas) (s : DebugDrawState) : DebugDrawState :=
  { Palette := initPaletteLoop (List.range 16) s.Palette
    glyph_indexes := initGlyphLoop font (List.range font.sdf_num_chars.toNat) s.glyph_indexes }

/-! ## Text drawing -/

/-- The shoelace sum along a vertex list that closes back to `first`. -/
def shoelace (first : cpVect) : List cpVect → ℚ
  | [] => 0
  | [v] => v.x * first.y - first.x * v.y
  | v :: w :: rest => (v.x * w.y - w.x * v.y) + shoelace first (w :: rest)

/-- Twice the signed area of the polygon given by a vertex list (shoelace sum over the closed
boundary): positive for a counter-clockwise list, negative for a clockwise one. -/
def signedArea2 : List cpVect → ℚ
  | [] => 0
  | v :: rest => shoelace v (v :: rest)

/-- Spec side of the bounding-box claim: the four corners of the box in the order bottom right,
top right, top left, bottom left. -/
def bbCorners (bb : cpBB) : List cpVect :=
  [⟨bb.r, bb.b⟩, ⟨bb.r, bb.t⟩, ⟨bb.l, bb.t⟩, ⟨bb.l, bb.b⟩]

/-- The counts of a request as one tuple: render state, requested triangles, requested vertexes,
number of vertexes written, indexes written. -/
def shape (q : PhotonRenderBuffers) : PhotonRenderState × Int × Int × Nat × List Int :=
  (q.state, q.triangles, q.vertexCount, q.vertexes.length, q.indexes)

/-- The positions of the vertexes written into a request, in slot order. -/
def positions (q : PhotonRenderBuffers) : List pvec4 := q.vertexes.map fun v => v.position

/-- A sample instance of the Chipmunk vector functions over `ℚ`: `cpvnormalize` divides by the
rational square root of the squared length (exact for vectors of rational length), and
`cpvforangle` is the unit vector of angle 0. -/
def sampleMath : ChipmunkMath where
  cpvnormalize v := cpvmult v (1 / Rat.sqrt (v.x * v.x + v.y * v.y))
  cpvforangle _ := ⟨1, 0⟩

/-- A sample font atlas descriptor in the format of the metadata table: a 32x16 image with the two
glyphs `A` (code 65) and `B` (code 66), sub-pixel fields scaled by 16. -/
def sampleFont : FontAtlas where
  sdf_tex_width := 32
  sdf_tex_height := 16
  sdf_num_chars := 2
  scale_factor := 16
  sdf_spacing k :=
    if k < 0 then 0
    else ([65, 0, 0, 10, 12, 16, 192, 160, 66, 10, 0, 11, 12, 16, 192, 176] : List Int).getD
      k.toNat 0

/-! ## Theorems -/

theorem sampleMath_odd (v : cpVect) :
    sampleMath.cpvnormalize (cpvneg v) = cpvneg (sampleMath.cpvnormalize v) := by
  simp [sampleMath, cpvneg, cpvmult]

/-- C5: for every size, position, fill color and scale factor `ChipmunkDebugDrawDot` enqueues
exactly one request, a quad of the primitive batch: 2 triangles, 4 vertexes, the 6 indexes
0,1,2, 2,3,0; `DrawCircle` does so for every position and radius pair, and it is the fill part
(the first request) of `ChipmunkDebugDrawCircle` for every radius. -/
theorem dot_and_circle_fill_enqueue_one_quad (M : ChipmunkMath) (Renderer : PhotonRenderer)
    (scaleFactor size angle radius : ℚ) (pos : cpVect) (outline fill : cpSpaceDebugColor) :
    (∀ (p : pvec2) (r1 r2 : ℚ) (color : pvec4),
      shape (DrawCircle Renderer p r1 r2 color)
        = (.PrimitiveState, 2, 4, 4, [0, 1, 2, 2, 3, 0])) ∧
    (∃ q, ChipmunkDebugDrawDot Renderer scaleFactor size pos fill = [q] ∧
      shape q = (.PrimitiveState, 2, 4, 4, [0, 1, 2, 2, 3, 0])) ∧
    (∃ q r1 r2 segment,
      ChipmunkDebugDrawCircle M Renderer scaleFactor pos angle radius outline fill
        = q :: segment ∧
      q = DrawCircle Renderer ⟨pos.x, pos.y⟩ r1 r2 (MakeColor fill) ∧
      shape q = (.PrimitiveState, 2, 4, 4, [0, 1, 2, 2, 3, 0])) := by
  have h : ∀ (p : pvec2) (r1 r2 : ℚ) (color : pvec4),
      shape (DrawCircle Renderer p r1 r2 color)
        = (.PrimitiveState, 2, 4, 4, [0, 1, 2, 2, 3, 0]) := by
    intro p r1 r2 color
    simp [shape, DrawCircle, PhotonRendererEnqueueTriangles, PhotonVertexPush,
      PhotonRenderBuffersCopyIndexes, PhotonIndexesCopy]
  refine ⟨h, ⟨_, rfl, h _ _ _ _⟩, ⟨_, _, _, _, rfl, rfl, h _ _ _ _⟩⟩

/-- C3: for all points `a`, `b` (distinct or not), every radius, color and scale factor, each of
`ChipmunkDebugDrawSegment` and `ChipmunkDebugDrawFatSegment` enqueues exactly one request of the
primitive batch with 6 triangles, 8 vertexes and the 18 indexes
0,1,2, 3,1,2, 3,4,2, 3,4,5, 6,4,5, 6,7,5, every index being below 8. -/
theorem segment_enqueues_eight_vertexes (M : ChipmunkMath) (Renderer : PhotonRenderer)
    (scaleFactor radius : ℚ) (a b : cpVect) (color outline fill : cpSpaceDebugColor) :
    (∃ q, ChipmunkDebugDrawSegment M Renderer a b color = [q] ∧
      shape q = (.PrimitiveState, 6, 8, 8,
        [0, 1, 2, 3, 1, 2, 3, 4, 2, 3, 4, 5, 6, 4, 5, 6, 7, 5]) ∧
      q.indexes.length = 18 ∧ ∀ k ∈ q.indexes, 0 ≤ k ∧ k < 8) ∧
    (∃ q, ChipmunkDebugDrawFatSegment M Renderer scaleFactor a b radius outline fill = [q] ∧
      shape q = (.PrimitiveState, 6, 8, 8,
        [0, 1, 2, 3, 1, 2, 3, 4, 2, 3, 4, 5, 6, 4, 5, 6, 7, 5]) ∧
      q.indexes.length = 18 ∧ ∀ k ∈ q.indexes, 0 ≤ k ∧ k < 8) := by
  have h : ∀ (r1 r2 : ℚ) (c : pvec4),
      shape (DrawSegment M Renderer a b r1 r2 c) = (.PrimitiveState, 6, 8, 8,
        [0, 1, 2, 3, 1, 2, 3, 4, 2, 3, 4, 5, 6, 4, 5, 6, 7, 5]) ∧
      (DrawSegment M Renderer a b r1 r2 c).indexes.length = 18 ∧
      ∀ k ∈ (DrawSegment M Renderer a b r1 r2 c).indexes, 0 ≤ k ∧ k < 8 := by
    intro r1 r2 c
    have hi : (DrawSegment M Renderer a b r1 r2 c).indexes
        = [0, 1, 2, 3, 1, 2, 3, 4, 2, 3, 4, 5, 6, 4, 5, 6, 7, 5] := by
      simp [DrawSegment, PhotonRendererEnqueueTriangles, PhotonRenderBuffersCopyIndexes,
        PhotonIndexesCopy]
    refine ⟨?_, ?_, ?_⟩
    · simp [shape, DrawSegment, PhotonRendererEnqueueTriangles, PhotonVertexPush,
        PhotonRenderBuffersCopyIndexes, PhotonIndexesCopy]
    · rw [hi]; rfl
    · rw [hi]; decide
  exact ⟨⟨_, rfl, h _ _ _⟩, ⟨_, rfl, h _ _ _⟩⟩

/-- C4: when `cpvnormalize` is odd (`cpvnormalize(-v) = -cpvnormalize(v)`), swapping the endpoints
of `DrawSegment` reverses the list of the 8 emitted positions: vertex `k` of the call on `(b, a)`
has the position of vertex `7 - k` of the call on `(a, b)`, and both calls emit the same set of
positions. -/
theorem segment_swap_reverses_positions (M : ChipmunkMath) (Renderer : PhotonRenderer)
    (a b : cpVect) (r1 r2 : ℚ) (color : pvec4)
    (hodd : ∀ v, M.cpvnormalize (cpvneg v) = cpvneg (M.cpvnormalize v)) :
    (positions (DrawSegment M Renderer a b r1 r2 color)).length = 8 ∧
    positions (DrawSegment M Renderer b a r1 r2 color)
      = (positions (DrawSegment M Renderer a b r1 r2 color)).reverse ∧
    (∀ k, k ≤ 7 → (positions (DrawSegment M Renderer b a r1 r2 color))[k]?
      = (positions (DrawSegment M Renderer a b r1 r2 color))[7 - k]?) ∧
    (∀ p, p ∈ positions (DrawSegment M Renderer b a r1 r2 color)
      ↔ p ∈ positions (DrawSegment M Renderer a b r1 r2 color)) := by
  have hlen : (positions (DrawSegment M Renderer a b r1 r2 color)).length = 8 := by
    simp [positions, DrawSegment, PhotonRendererEnqueueTriangles, PhotonVertexPush,
      PhotonRenderBuffersCopyIndexes]
  have hsub : cpvsub a b = cpvneg (cpvsub b a) := by simp [cpvsub, cpvneg]
  have ht : M.cpvnormalize (cpvsub a b) = cpvneg (M.cpvnormalize (cpvsub b a)) := by
    rw [hsub, hodd]
  have hrev : positions (DrawSegment M Renderer b a r1 r2 color)
      = (positions (DrawSegment M Renderer a b r1 r2 color)).reverse := by
    simp only [positions, DrawSegment, PhotonRendererEnqueueTriangles, PhotonVertexPush,
      PhotonRenderBuffersCopyIndexes, ht]
    generalize M.cpvnormalize (cpvsub b a) = n
    simp only [cpvneg, cpvmult, List.nil_append, List.cons_append, List.map_cons, List.map_nil,
      List.reverse_cons, List.reverse_nil, List.cons.injEq, pvec4.mk.injEq, and_true, true_and]
    refine ⟨⟨?_, ?_⟩, ⟨?_, ?_⟩, ⟨?_, ?_⟩, ⟨?_, ?_⟩, ⟨?_, ?_⟩, ⟨?_, ?_⟩, ⟨?_, ?_⟩, ?_, ?_⟩ <;> ring
  refine ⟨hlen, hrev, ?_, ?_⟩
  · intro k hk
    rw [hrev, List.getElem?_reverse (by omega), hlen]
  · intro p
    rw [hrev, List.mem_reverse]

/-- Witness of C4: the segment from (0,0) to (3,4) with the sample normalisation. -/
theorem segment_swap_reverses_positions_witness :
    (∀ v, sampleMath.cpvnormalize (cpvneg v) = cpvneg (sampleMath.cpvnormalize v)) ∧
    (positions (DrawSegment sampleMath ⟨0⟩ ⟨0, 0⟩ ⟨3, 4⟩ 2 1 ⟨1, 1, 1, 1⟩)).length = 8 ∧
    positions (DrawSegment sampleMath ⟨0⟩ ⟨3, 4⟩ ⟨0, 0⟩ 2 1 ⟨1, 1, 1, 1⟩)
      = (positions (DrawSegment sampleMath ⟨0⟩ ⟨0, 0⟩ ⟨3, 4⟩ 2 1 ⟨1, 1, 1, 1⟩)).reverse ∧
    (∀ k, k ≤ 7 → (positions (DrawSegment sampleMath ⟨0⟩ ⟨3, 4⟩ ⟨0, 0⟩ 2 1 ⟨1, 1, 1, 1⟩))[k]?
      = (positions (DrawSegment sampleMath ⟨0⟩ ⟨0, 0⟩ ⟨3, 4⟩ 2 1 ⟨1, 1, 1, 1⟩))[7 - k]?) ∧
    (∀ p, p ∈ positions (DrawSegment sampleMath ⟨0⟩ ⟨3, 4⟩ ⟨0, 0⟩ 2 1 ⟨1, 1, 1, 1⟩)
      ↔ p ∈ positions (DrawSegment sampleMath ⟨0⟩ ⟨0, 0⟩ ⟨3, 4⟩ 2 1 ⟨1, 1, 1, 1⟩)) :=
  ⟨sampleMath_odd,
    segment_swap_reverses_positions sampleMath ⟨0⟩ ⟨0, 0⟩ ⟨3, 4⟩ 2 1 ⟨1, 1, 1, 1⟩ sampleMath_odd⟩

/-! ### Polygon and bounding box -/

theorem polygonPushVertexes_eq (verts : List cpVect) (attribs : pvec2) (color : pvec4) :
    ∀ (is : List Nat) (acc : List PhotonVertex), (∀ i ∈ is, i < verts.length) →
      polygonPushVertexes verts attribs color is acc
        = some (acc ++ is.map fun i =>
            ⟨⟨(verts.getD i ⟨0, 0⟩).x, (verts.getD i ⟨0, 0⟩).y, 0, 1⟩, PVEC2_0, attribs, color⟩) := by
  intro is
  induction is with
  | nil => intro acc _; simp [polygonPushVertexes]
  | cons i is ih =>
    intro acc h
    have hi : i < verts.length := h i (List.mem_cons_self _ _)
    have hget : verts[i]? = some (verts.getD i ⟨0, 0⟩) := by
      rw [List.getD_eq_getElem _ _ hi, List.getElem?_eq_getElem hi]
    simp only [polygonPushVertexes, hget]
    rw [ih _ (fun j hj => h j (List.mem_cons_of_mem _ hj))]
    simp [PhotonVertexPush]

theorem map_range_getD (verts : List cpVect) (f : cpVect → PhotonVertex) :
    (List.range verts.length).map (fun i => f (verts.getD i ⟨0, 0⟩)) = verts.map f := by
  apply List.ext_getElem
  · simp
  · intro n h1 h2
    simp only [List.length_map, List.length_range] at h1
    simp [List.getElem?_eq_getElem h1]

theorem polygonCopyIndexes_eq (batchOffset : Int) :
    ∀ (is : List Nat) (acc : List Int),
      polygonCopyIndexes batchOffset is acc
        = acc ++ is.flatMap fun i => [0, (i : Int) + 1, (i : Int) + 2] := by
  intro is
  induction is with
  | nil => intro acc; simp [polygonCopyIndexes]
  | cons i is ih =>
    intro acc
    simp [polygonCopyIndexes, ih, PhotonIndexesCopy]

theorem fan_length (is : List Nat) :
    (is.flatMap fun i => [0, (i : Int) + 1, (i : Int) + 2]).length = 3 * is.length := by
  induction is with
  | nil => simp
  | cons i is ih => simp only [List.flatMap_cons, List.length_append, ih, List.length_cons,
      List.length_nil]; omega

theorem polygon_result (Renderer : PhotonRenderer) (count : Int) (verts : List cpVect)
    (radius : ℚ) (outline fill : cpSpaceDebugColor) (hlen : (verts.length : Int) = count) :
    ChipmunkDebugDrawPolygon Renderer count verts radius outline fill
      = some [⟨.PrimitiveState, count - 2, count,
          verts.map (fun v => ⟨⟨v.x, v.y, 0, 1⟩, PVEC2_0, ⟨1, 1⟩, MakeColor fill⟩),
          (List.range (count - 2).toNat).flatMap (fun i => [0, (i : Int) + 1, (i : Int) + 2]),
          Renderer.batchOffset⟩] := by
  have hn : count.toNat = verts.length := by omega
  unfold ChipmunkDebugDrawPolygon
  simp only [PhotonRendererEnqueueTriangles]
  have hmap := map_range_getD verts
    (fun v => ⟨⟨v.x, v.y, 0, 1⟩, PVEC2_0, ⟨1, 1⟩, MakeColor fill⟩)
  rw [polygonPushVertexes_eq _ _ _ _ _ (by intro i hi; rw [hn] at hi; simpa using hi),
    polygonCopyIndexes_eq, hn, hmap]
  simp

/-- C1: for every `count ≥ 2` and every array `verts` of `count` points,
`ChipmunkDebugDrawPolygon` enqueues one request asking for `count - 2` triangles and `count`
vertexes, writes exactly `count` vertexes whose positions are `(verts[i].x, verts[i].y, 0, 1)` in
input order, and writes exactly `3*(count-2)` indexes, the triples `(0, i+1, i+2)` for
`i = 0..count-3` in that order; every index is below `count`. -/
theorem polygon_is_fan_from_vertex_zero (Renderer : PhotonRenderer) (count : Int)
    (verts : List cpVect) (radius : ℚ) (outline fill : cpSpaceDebugColor)
    (hcount : 2 ≤ count) (hlen : (verts.length : Int) = count) :
    ∃ q, ChipmunkDebugDrawPolygon Renderer count verts radius outline fill = some [q] ∧
      q.state = .PrimitiveState ∧ q.triangles = count - 2 ∧ q.vertexCount = count ∧
      (q.vertexes.length : Int) = count ∧
      positions q = verts.map (fun v => ⟨v.x, v.y, 0, 1⟩) ∧
      (q.indexes.length : Int) = 3 * (count - 2) ∧
      q.indexes = (List.range (count - 2).toNat).flatMap
        (fun i => [0, (i : Int) + 1, (i : Int) + 2]) ∧
      ∀ k ∈ q.indexes, 0 ≤ k ∧ k < count := by
  refine ⟨_, polygon_result Renderer count verts radius outline fill hlen, rfl, rfl, rfl, ?_, ?_,
    ?_, rfl, ?_⟩
  · simpa using hlen
  · simp [positions]
  · rw [fan_length]; simp; omega
  · intro k hk
    simp only [List.mem_flatMap, List.mem_range] at hk
    obtain ⟨i, hi, hk⟩ := hk
    simp only [List.mem_cons, List.mem_singleton, List.not_mem_nil, or_false] at hk
    omega

/-- Witness of C1: a triangle, `count = 3`. -/
theorem polygon_is_fan_from_vertex_zero_witness :
    (2 : Int) ≤ 3 ∧ (([⟨0, 0⟩, ⟨1, 0⟩, ⟨0, 1⟩] : List cpVect).length : Int) = 3 ∧
    ∃ q, ChipmunkDebugDrawPolygon ⟨0⟩ 3 [⟨0, 0⟩, ⟨1, 0⟩, ⟨0, 1⟩] 0 ⟨0, 0, 0, 1⟩ ⟨1, 0, 0, 1⟩
        = some [q] ∧
      q.state = .PrimitiveState ∧ q.triangles = 3 - 2 ∧ q.vertexCount = 3 ∧
      (q.vertexes.length : Int) = 3 ∧
      positions q = ([⟨0, 0⟩, ⟨1, 0⟩, ⟨0, 1⟩] : List cpVect).map (fun v => ⟨v.x, v.y, 0, 1⟩) ∧
      (q.indexes.length : Int) = 3 * (3 - 2) ∧
      q.indexes = (List.range ((3 : Int) - 2).toNat).flatMap
        (fun i => [0, (i : Int) + 1, (i : Int) + 2]) ∧
      ∀ k ∈ q.indexes, 0 ≤ k ∧ k < 3 :=
  ⟨by decide, by decide,
    polygon_is_fan_from_vertex_zero ⟨0⟩ 3 [⟨0, 0⟩, ⟨1, 0⟩, ⟨0, 1⟩] 0 ⟨0, 0, 0, 1⟩ ⟨1, 0, 0, 1⟩
      (by decide) (by decide)⟩

/-- C2, as stated, fails: for the unit box no clockwise list of four points (negative signed area)
makes `ChipmunkDebugDrawPolygon` write the vertexes and indexes that `ChipmunkDebugDrawBB`
writes. -/
theorem bb_corner_order_is_not_clockwise :
    ¬ ∃ (verts : List cpVect) (outline fill : cpSpaceDebugColor) (q q' : PhotonRenderBuffers),
      verts.length = 4 ∧ signedArea2 verts < 0 ∧
      ChipmunkDebugDrawPolygon ⟨0⟩ 4 verts 0 outline fill = some [q] ∧
      ChipmunkDebugDrawBB ⟨0⟩ ⟨0, 0, 1, 1⟩ ⟨1, 1, 1, 1⟩ = some [q'] ∧
      q.vertexes = q'.vertexes ∧ q.indexes = q'.indexes := by
  rintro ⟨verts, outline, fill, q, q', hlen, harea, hq, hq', hv, -⟩
  rw [polygon_result _ _ _ _ _ _ (by rw [hlen]; rfl)] at hq
  unfold ChipmunkDebugDrawBB at hq'
  rw [polygon_result _ _ _ _ _ _ (by rfl)] at hq'
  simp only [Option.some.injEq, List.cons.injEq, and_true] at hq hq'
  subst hq hq'
  rcases verts with _ | ⟨⟨x0, y0⟩, _ | ⟨⟨x1, y1⟩, _ | ⟨⟨x2, y2⟩, _ | ⟨⟨x3, y3⟩, _ | ⟨v4, rest⟩⟩⟩⟩⟩ <;>
    simp at hlen
  simp [cpv] at hv
  obtain ⟨⟨⟨rfl, rfl⟩, -⟩, ⟨⟨rfl, rfl⟩, -⟩, ⟨⟨rfl, rfl⟩, -⟩, ⟨⟨rfl, rfl⟩, -⟩⟩ := hv
  norm_num [signedArea2, shoelace] at harea

/-- C2, amended: for every box with `l < r` and `b < t` and every color, `ChipmunkDebugDrawBB`
is `ChipmunkDebugDrawPolygon` on `count = 4`, radius 0, a fully transparent fill (alpha 0) and the
four corners in the fixed order bottom right, top right, top left, bottom left, which is
counter-clockwise (positive signed area); it enqueues 4 vertexes at these corners and the indexes
0,1,2, 0,2,3. -/
theorem bb_is_counterclockwise_polygon (Renderer : PhotonRenderer) (bb : cpBB)
    (color : cpSpaceDebugColor) (hx : bb.l < bb.r) (hy : bb.b < bb.t) :
    (∃ fill : cpSpaceDebugColor, fill.a = 0 ∧
      ChipmunkDebugDrawBB Renderer bb color
        = ChipmunkDebugDrawPolygon Renderer 4 (bbCorners bb) 0 color fill) ∧
    0 < signedArea2 (bbCorners bb) ∧
    ∃ q, ChipmunkDebugDrawBB Renderer bb color = some [q] ∧
      shape q = (.PrimitiveState, 2, 4, 4, [0, 1, 2, 0, 2, 3]) ∧
      positions q = [⟨bb.r, bb.b, 0, 1⟩, ⟨bb.r, bb.t, 0, 1⟩, ⟨bb.l, bb.t, 0, 1⟩,
        ⟨bb.l, bb.b, 0, 1⟩] := by
  refine ⟨⟨LAColor 0 0, rfl, rfl⟩, ?_, ?_⟩
  · have h : signedArea2 (bbCorners bb) = 2 * ((bb.r - bb.l) * (bb.t - bb.b)) := by
      simp only [signedArea2, shoelace, bbCorners]; ring
    rw [h]
    have h1 : 0 < bb.r - bb.l := sub_pos.mpr hx
    have h2 : 0 < bb.t - bb.b := sub_pos.mpr hy
    positivity
  · unfold ChipmunkDebugDrawBB
    rw [polygon_result _ _ _ _ _ _ (by rfl)]
    refine ⟨_, rfl, ?_, ?_⟩
    · simp [shape, List.range_succ, List.flatMap]
    · simp [positions, cpv]

/-- Witness of the amended C2: the unit box. -/
theorem bb_is_counterclockwise_polygon_witness :
    (0 : ℚ) < 1 ∧
    (∃ fill : cpSpaceDebugColor, fill.a = 0 ∧
      ChipmunkDebugDrawBB ⟨0⟩ ⟨0, 0, 1, 1⟩ ⟨1, 1, 1, 1⟩
        = ChipmunkDebugDrawPolygon ⟨0⟩ 4 (bbCorners ⟨0, 0, 1, 1⟩) 0 ⟨1, 1, 1, 1⟩ fill) ∧
    0 < signedArea2 (bbCorners ⟨0, 0, 1, 1⟩) ∧
    ∃ q, ChipmunkDebugDrawBB ⟨0⟩ ⟨0, 0, 1, 1⟩ ⟨1, 1, 1, 1⟩ = some [q] ∧
      shape q = (.PrimitiveState, 2, 4, 4, [0, 1, 2, 0, 2, 3]) ∧
      positions q = [⟨1, 0, 0, 1⟩, ⟨1, 1, 0, 1⟩, ⟨0, 1, 0, 1⟩, ⟨0, 0, 0, 1⟩] :=
  ⟨by norm_num,
    bb_is_counterclockwise_polygon ⟨0⟩ ⟨0, 0, 1, 1⟩ ⟨1, 1, 1, 1⟩ (by norm_num) (by norm_num)⟩

/-! ### Dot -/

/-- C9, as stated, fails: for size 1 at scale factor 1 (`r = 1/2`) the vertexes of
`ChipmunkDebugDrawDot` do not carry the radius pair `(r + 1, r) = (3/2, 1/2)`. -/
theorem dot_radius_pair_is_not_r_plus_one_r :
    ¬ ∀ q ∈ ChipmunkDebugDrawDot ⟨0⟩ 1 1 ⟨0, 0⟩ ⟨1, 1, 1, 1⟩, ∀ v ∈ q.vertexes,
      v.uv2 = ⟨1 * (1 / 2) * 1 + 1, 1 * (1 / 2) * 1⟩ := by
  intro h
  have h0 := h _ (List.mem_singleton.mpr rfl) ⟨⟨0 - 1 / 2, 0 - 1 / 2, 0, 1⟩, ⟨-(1 / 2), -(1 / 2)⟩,
    ⟨1 / 2 + 1, 1⟩, ⟨1, 1, 1, 1⟩⟩
    (by norm_num [DrawCircle, PhotonRendererEnqueueTriangles, PhotonVertexPush,
      PhotonRenderBuffersCopyIndexes, MakeColor, cpfmax])
  norm_num at h0

/-- C9, amended: for every size, position, fill color and scale factor, with
`r = size * 0.5 * ChipmunkDebugDrawScaleFactor`, all four vertexes of `ChipmunkDebugDrawDot` carry
the radius pair `(r + 1, max(r, 1))`, and their positions are the corners
`(pos.x ± r, pos.y ± r)` of the axis-aligned square centred on `pos`. -/
theorem dot_radius_pair_and_corners (Renderer : PhotonRenderer) (scaleFactor size : ℚ)
    (pos : cpVect) (fill : cpSpaceDebugColor) :
    ∃ q, ChipmunkDebugDrawDot Renderer scaleFactor size pos fill = [q] ∧
      q.vertexes.length = 4 ∧
      (∀ v ∈ q.vertexes, v.uv2 = ⟨size * (1 / 2) * scaleFactor + 1,
        max (size * (1 / 2) * scaleFactor) 1⟩) ∧
      positions q =
        [⟨pos.x - size * (1 / 2) * scaleFactor, pos.y - size * (1 / 2) * scaleFactor, 0, 1⟩,
         ⟨pos.x - size * (1 / 2) * scaleFactor, pos.y + size * (1 / 2) * scaleFactor, 0, 1⟩,
         ⟨pos.x + size * (1 / 2) * scaleFactor, pos.y + size * (1 / 2) * scaleFactor, 0, 1⟩,
         ⟨pos.x + size * (1 / 2) * scaleFactor, pos.y - size * (1 / 2) * scaleFactor, 0, 1⟩] := by
  have hmax : ∀ a b : ℚ, cpfmax a b = max a b := by
    intro a b
    unfold cpfmax
    split_ifs with h
    · exact (max_eq_left h.le).symm
    · exact (max_eq_right (not_lt.mp h)).symm
  refine ⟨_, rfl, ?_, ?_, ?_⟩
  · simp [DrawCircle, PhotonRendererEnqueueTriangles, PhotonVertexPush,
      PhotonRenderBuffersCopyIndexes]
  · intro v hv
    simp only [DrawCircle, PhotonRendererEnqueueTriangles, PhotonVertexPush,
      PhotonRenderBuffersCopyIndexes, List.nil_append, List.cons_append, List.mem_cons,
      List.mem_singleton, List.not_mem_nil, or_false, hmax] at hv
    rcases hv with rfl | rfl | rfl | rfl <;> rfl
  · simp [positions, DrawCircle, PhotonRendererEnqueueTriangles, PhotonVertexPush,
      PhotonRenderBuffersCopyIndexes]

/-! ### Initialization -/

theorem initPaletteLoop_apply (i : Nat) :
    ∀ (is : List Nat) (P : Nat → pvec4),
      initPaletteLoop is P i
        = if i ∈ is then pvec4Mult (palette.getD i ⟨0, 0, 0, 0⟩) (1 / 255) else P i := by
  intro is
  induction is with
  | nil => intro P; simp [initPaletteLoop]
  | cons j is ih =>
    intro P
    rw [initPaletteLoop, ih]
    by_cases hmem : i ∈ is
    · simp [hmem]
    · by_cases hij : i = j
      · subst hij; simp [hmem]
      · simp [hmem, hij, Function.update_noteq hij]

/-- C8: after `ChipmunkDebugDrawInit`, for every palette index `i` in 0..15 every channel of
`Palette[i]` is the compiled-in 0-255 value of that entry and channel divided by 255 (exact
rational arithmetic); so every channel lies in [0, 1] and every alpha equals 1. -/
theorem palette_is_normalized (font : FontAtlas) (s : DebugDrawState) (i : Nat) (hi : i < 16) :
    (ChipmunkDebugDrawInit font s).Palette i
      = ⟨(palette.getD i ⟨0, 0, 0, 0⟩).x / 255, (palette.getD i ⟨0, 0, 0, 0⟩).y / 255,
         (palette.getD i ⟨0, 0, 0, 0⟩).z / 255, (palette.getD i ⟨0, 0, 0, 0⟩).w / 255⟩ ∧
    (0 ≤ ((ChipmunkDebugDrawInit font s).Palette i).x ∧
      ((ChipmunkDebugDrawInit font s).Palette i).x ≤ 1) ∧
    (0 ≤ ((ChipmunkDebugDrawInit font s).Palette i).y ∧
      ((ChipmunkDebugDrawInit font s).Palette i).y ≤ 1) ∧
    (0 ≤ ((ChipmunkDebugDrawInit font s).Palette i).z ∧
      ((ChipmunkDebugDrawInit font s).Palette i).z ≤ 1) ∧
    ((ChipmunkDebugDrawInit font s).Palette i).w = 1 := by
  have h : (ChipmunkDebugDrawInit font s).Palette i
      = pvec4Mult (palette.getD i ⟨0, 0, 0, 0⟩) (1 / 255) := by
    simp only [ChipmunkDebugDrawInit]
    rw [initPaletteLoop_apply, if_pos (List.mem_range.mpr hi)]
  rw [h]
  interval_cases i <;> norm_num [palette, pvec4Mult]

/-- Witness of C8: palette entry 14, the text color (218, 212, 94, 255). -/
theorem palette_is_normalized_witness :
    14 < 16 ∧
    (ChipmunkDebugDrawInit sampleFont initialState).Palette 14
      = ⟨(palette.getD 14 ⟨0, 0, 0, 0⟩).x / 255, (palette.getD 14 ⟨0, 0, 0, 0⟩).y / 255,
         (palette.getD 14 ⟨0, 0, 0, 0⟩).z / 255, (palette.getD 14 ⟨0, 0, 0, 0⟩).w / 255⟩ ∧
    (0 ≤ ((ChipmunkDebugDrawInit sampleFont initialState).Palette 14).x ∧
      ((ChipmunkDebugDrawInit sampleFont initialState).Palette 14).x ≤ 1) ∧
    (0 ≤ ((ChipmunkDebugDrawInit sampleFont initialState).Palette 14).y ∧
      ((ChipmunkDebugDrawInit sampleFont initialState).Palette 14).y ≤ 1) ∧
    (0 ≤ ((ChipmunkDebugDrawInit sampleFont initialState).Palette 14).z ∧
      ((ChipmunkDebugDrawInit sampleFont initialState).Palette 14).z ≤ 1) ∧
    ((ChipmunkDebugDrawInit sampleFont initialState).Palette 14).w = 1 :=
  ⟨by decide, palette_is_normalized sampleFont initialState 14 (by decide)⟩

theorem initGlyphLoop_append (font : FontAtlas) :
    ∀ (l1 l2 : List Nat) (g : Int → Int),
      initGlyphLoop font (l1 ++ l2) g = initGlyphLoop font l2 (initGlyphLoop font l1 g) := by
  intro l1
  induction l1 with
  | nil => intro l2 g; rfl
  | cons i l1 ih => intro l2 g; exact ih l2 _

theorem initGlyphLoop_range (font : FontAtlas) (g : Int → Int) (c : Int) :
    ∀ m : Nat,
      ((∀ i : Nat, i < m → font.sdf_spacing ((i : Int) * 8) ≠ c) →
        initGlyphLoop font (List.range m) g c = g c) ∧
      (∀ i : Nat, i < m → font.sdf_spacing ((i : Int) * 8) = c →
        ∃ j : Nat, j < m ∧ initGlyphLoop font (List.range m) g c = (j : Int) ∧
          font.sdf_spacing ((j : Int) * 8) = c ∧ i ≤ j) := by
  intro m
  induction m with
  | zero => exact ⟨fun _ => rfl, fun i hi => absurd hi (Nat.not_lt_zero i)⟩
  | succ m ih =>
    have hstep : initGlyphLoop font (List.range (m + 1)) g
        = Function.update (initGlyphLoop font (List.range m) g)
            (font.sdf_spacing ((m : Int) * 8)) (m : Int) := by
      rw [List.range_succ, initGlyphLoop_append]; rfl
    rw [hstep]
    by_cases hc : font.sdf_spacing ((m : Int) * 8) = c
    · subst hc
      refine ⟨fun h => absurd rfl (h m (Nat.lt_succ_self m)), fun i hi _ => ?_⟩
      exact ⟨m, Nat.lt_succ_self m, by simp, rfl, Nat.lt_succ_iff.mp hi⟩
    · have hne : c ≠ font.sdf_spacing ((m : Int) * 8) := fun h => hc h.symm
      rw [Function.update_noteq hne]
      refine ⟨fun h => ih.1 (fun i hi => h i (Nat.lt_succ_of_lt hi)), fun i hi hic => ?_⟩
      have him : i < m := by
        rcases Nat.lt_succ_iff_lt_or_eq.mp hi with h | h
        · exact h
        · subst h; exact absurd hic hc
      obtain ⟨j, hj, hg, hjc, hij⟩ := ih.2 i him hic
      exact ⟨j, Nat.lt_succ_of_lt hj, hg, hjc, hij⟩

/-- C10: when `sdf_num_chars > 0` and every character code `sdf_spacing[i*8]`, `i < sdf_num_chars`,
lies in 0..255, the glyph loop of `ChipmunkDebugDrawInit`, run on the zeroed static table, writes
nothing outside the 256 entries, and every entry `glyph_indexes[c]`, `c` in 0..255, is a glyph
index in `[0, sdf_num_chars)`: the largest `i` with `sdf_spacing[i*8] = c` when there is one, and
0 otherwise.  Hence the reads `sdf_spacing[i*8 + k]`, `k ≤ 7`, of `PushChar` for such a character
stay inside the `8 * sdf_num_chars` entries of the metadata table. -/
theorem glyph_indexes_are_valid (font : FontAtlas) (hn : 0 < font.sdf_num_chars)
    (hcodes : ∀ i : Int, 0 ≤ i → i < font.sdf_num_chars →
      0 ≤ font.sdf_spacing (i * 8) ∧ font.sdf_spacing (i * 8) ≤ 255) :
    (∀ c : Int, c < 0 ∨ 255 < c →
      (ChipmunkDebugDrawInit font initialState).glyph_indexes c = 0) ∧
    ∀ c : Int, 0 ≤ c → c ≤ 255 →
      (0 ≤ (ChipmunkDebugDrawInit font initialState).glyph_indexes c ∧
        (ChipmunkDebugDrawInit font initialState).glyph_indexes c < font.sdf_num_chars) ∧
      (∀ i : Int, 0 ≤ i → i < font.sdf_num_chars → font.sdf_spacing (i * 8) = c →
        font.sdf_spacing ((ChipmunkDebugDrawInit font initialState).glyph_indexes c * 8) = c ∧
        i ≤ (ChipmunkDebugDrawInit font initialState).glyph_indexes c) ∧
      ((∀ i : Int, 0 ≤ i → i < font.sdf_num_chars → font.sdf_spacing (i * 8) ≠ c) →
        (ChipmunkDebugDrawInit font initialState).glyph_indexes c = 0) ∧
      (∀ k : Int, 0 ≤ k → k ≤ 7 →
        0 ≤ (ChipmunkDebugDrawInit font initialState).glyph_indexes c * 8 + k ∧
        (ChipmunkDebugDrawInit font initialState).glyph_indexes c * 8 + k
          < 8 * font.sdf_num_chars) := by
  obtain ⟨m, hm⟩ : ∃ m : Nat, font.sdf_num_chars = (m : Int) :=
    ⟨font.sdf_num_chars.toNat, (Int.toNat_of_nonneg hn.le).symm⟩
  have hg : (ChipmunkDebugDrawInit font initialState).glyph_indexes
      = initGlyphLoop font (List.range m) (fun _ => 0) := by
    simp [ChipmunkDebugDrawInit, initialState, hm]
  rw [hg]
  refine ⟨fun c hc => ?_, fun c _ _ => ?_⟩
  · refine (initGlyphLoop_range font (fun _ => 0) c m).1 (fun i hi heq => ?_)
    have h := hcodes (i : Int) (Int.ofNat_nonneg i) (by rw [hm]; exact_mod_cast hi)
    rw [heq] at h
    omega
  · have key := initGlyphLoop_range font (fun _ => 0) c m
    by_cases hex : ∃ i : Nat, i < m ∧ font.sdf_spacing ((i : Int) * 8) = c
    · obtain ⟨i0, hi0, hc0⟩ := hex
      obtain ⟨j, hj, hgj, hjc, -⟩ := key.2 i0 hi0 hc0
      rw [hgj]
      refine ⟨⟨by omega, by omega⟩, fun i h0 h1 hic => ⟨hjc, ?_⟩,
        fun h => absurd hc0 (h i0 (by omega) (by omega)), fun k h0 h1 => ⟨by omega, by omega⟩⟩
      obtain ⟨i', rfl⟩ : ∃ i' : Nat, i = (i' : Int) := ⟨i.toNat, (Int.toNat_of_nonneg h0).symm⟩
      obtain ⟨j', -, hgj', -, hij'⟩ := key.2 i' (by omega) hic
      have : (j : Int) = (j' : Int) := hgj.symm.trans hgj'
      omega
    · have hnone : ∀ i : Nat, i < m → font.sdf_spacing ((i : Int) * 8) ≠ c :=
        fun i hi heq => hex ⟨i, hi, heq⟩
      rw [key.1 hnone]
      refine ⟨⟨le_refl 0, hn⟩, fun i h0 h1 hic => ?_, fun _ => rfl,
        fun k h0 h1 => ⟨by omega, by omega⟩⟩
      obtain ⟨i', rfl⟩ : ∃ i' : Nat, i = (i' : Int) := ⟨i.toNat, (Int.toNat_of_nonneg h0).symm⟩
      exact absurd hic (hnone i' (by omega))

/-- Witness of C10: the sample font of two glyphs. -/
theorem glyph_indexes_are_valid_witness :
    0 < sampleFont.sdf_num_chars ∧
    (∀ i : Int, 0 ≤ i → i < sampleFont.sdf_num_chars →
      0 ≤ sampleFont.sdf_spacing (i * 8) ∧ sampleFont.sdf_spacing (i * 8) ≤ 255) ∧
    (∀ c : Int, c < 0 ∨ 255 < c →
      (ChipmunkDebugDrawInit sampleFont initialState).glyph_indexes c = 0) ∧
    ∀ c : Int, 0 ≤ c → c ≤ 255 →
      (0 ≤ (ChipmunkDebugDrawInit sampleFont initialState).glyph_indexes c ∧
        (ChipmunkDebugDrawInit sampleFont initialState).glyph_indexes c
          < sampleFont.sdf_num_chars) ∧
      (∀ i : Int, 0 ≤ i → i < sampleFont.sdf_num_chars → sampleFont.sdf_spacing (i * 8) = c →
        sampleFont.sdf_spacing
          ((ChipmunkDebugDrawInit sampleFont initialState).glyph_indexes c * 8) = c ∧
        i ≤ (ChipmunkDebugDrawInit sampleFont initialState).glyph_indexes c) ∧
      ((∀ i : Int, 0 ≤ i → i < sampleFont.sdf_num_chars → sampleFont.sdf_spacing (i * 8) ≠ c) →
        (ChipmunkDebugDrawInit sampleFont initialState).glyph_indexes c = 0) ∧
      (∀ k : Int, 0 ≤ k → k ≤ 7 →
        0 ≤ (ChipmunkDebugDrawInit sampleFont initialState).glyph_indexes c * 8 + k ∧
        (ChipmunkDebugDrawInit sampleFont initialState).glyph_indexes c * 8 + k
          < 8 * sampleFont.sdf_num_chars) :=
  have hcodes : ∀ i : Int, 0 ≤ i → i < sampleFont.sdf_num_chars →
      0 ≤ sampleFont.sdf_spacing (i * 8) ∧ sampleFont.sdf_spacing (i * 8) ≤ 255 := by
    intro i h0 h1
    have h2 : i < 2 := h1
    interval_cases i <;> simp [sampleFont]
  ⟨by decide, hcodes, glyph_indexes_are_valid sampleFont (by decide) hcodes⟩

/-! ### Text -/

end ChipmunkDebugDraw
